import Mathlib

/-!
# Verification of TypeCord core components

Shallow embedding of the TypeCord repository's core units:

* `Group` (src/src/utils/Group.ts) — an insertion-ordered key/value store
  extending the JavaScript `Map`. A JS `Map` is an ordered sequence of
  key-distinct entries; `set` on an existing key replaces the value in
  place (keeping the entry's position) and otherwise appends; `delete`
  removes the entry with the given key. We model the map state as the
  ordered entry list and each `Group` method as a function on that state.
* `BasicInteraction` (an interaction-classification class of the repo) —
  a constructor turning one raw payload into a typed object plus
  type-predicate methods.
* `RoleManager` (a resource-manager class of the repo) — a cache of roles
  keyed by identifier with remote-backed create/delete/edit.
-/

set_option autoImplicit false

namespace TypeCord

universe u v

variable {K : Type u} {V : Type v}

/-- The state of a `Group<K, V>` (a JS `Map` subclass): the ordered list of
its `(key, value)` entries. Key distinctness is the `Map` invariant and is
tracked by the `keysNodup` predicate below. -/
structure Group (K : Type u) (V : Type v) where
  entries : List (K × V)
  deriving DecidableEq, Repr

namespace Group

/-- `Map.prototype.size`: the number of entries. -/
def size (g : Group K V) : Nat :=
  g.entries.length

/-- The keys in insertion order (`this.keys()`). -/
def keys (g : Group K V) : List K :=
  g.entries.map Prod.fst

/-- `toArray(): V[]` — `Array.from(this.values())`. -/
def toArray (g : Group K V) : List V :=
  g.entries.map Prod.snd

/-- `Map.prototype.has(key)`. -/
def hasKey [DecidableEq K] (g : Group K V) (k : K) : Bool :=
  g.entries.any fun p => decide (p.1 = k)

/-- `Map.prototype.get(key)`: the value of the entry with key `k`, if any. -/
def get [DecidableEq K] (g : Group K V) (k : K) : Option V :=
  (g.entries.find? fun p => decide (p.1 = k)).map Prod.snd

/-- `Map.prototype.set(key, value)`: replace in place when the key is
present (a JS `Map` keeps the entry's position), append otherwise. -/
def setEntry [DecidableEq K] (g : Group K V) (k : K) (v : V) : Group K V :=
  if g.hasKey k then
    ⟨g.entries.map fun p => if p.1 = k then (k, v) else p⟩
  else
    ⟨g.entries ++ [(k, v)]⟩

/-- `Map.prototype.delete(key)`: remove the entry with key `k`. -/
def deleteEntry [DecidableEq K] (g : Group K V) (k : K) : Group K V :=
  ⟨g.entries.filter fun p => decide (p.1 ≠ k)⟩

/-- The `Map` key-uniqueness invariant: all keys distinct. -/
def keysNodup (g : Group K V) : Prop :=
  g.keys.Nodup

/-- The number of distinct keys currently present. -/
def distinctKeyCount [DecidableEq K] (g : Group K V) : Nat :=
  g.keys.dedup.length

/-- Modelled from the spec: the constant `EMPTY_GROUP_VALUE` is imported
from `constants.json`, which is not under src/; the spec states that
`empty` holds iff `size() == 0`, so the constant is `0`. -/
def EMPTY_GROUP_VALUE : Nat := 0

/-- `get empty(): boolean` — `this.size === EMPTY_GROUP_VALUE`. -/
def empty (g : Group K V) : Bool :=
  decide (g.size = EMPTY_GROUP_VALUE)

end Group

/-- One mutation on a `Group`: a `set` or a `delete` call. -/
inductive GOp (K : Type u) (V : Type v) where
  | set (k : K) (v : V)
  | del (k : K)
  deriving DecidableEq, Repr

namespace Group

/-- Apply one mutation. -/
def applyOp [DecidableEq K] (g : Group K V) : GOp K V → Group K V
  | .set k v => g.setEntry k v
  | .del k => g.deleteEntry k

/-- Run a sequence of `set`/`delete` calls on an initially empty `Group`
(`new Group()` starts empty). -/
def applyOps [DecidableEq K] (ops : List (GOp K V)) : Group K V :=
  ops.foldl applyOp ⟨[]⟩

end Group

namespace Group

theorem keys_setEntry_of_hasKey [DecidableEq K] (g : Group K V) (k : K) (v : V)
    (h : g.hasKey k = true) : (g.setEntry k v).keys = g.keys := by
  simp only [setEntry, h, if_true, keys, List.map_map]
  apply List.map_congr_left
  intro p _
  by_cases hp : p.1 = k <;> simp [hp]

theorem keys_setEntry_of_not_hasKey [DecidableEq K] (g : Group K V) (k : K) (v : V)
    (h : g.hasKey k = false) : (g.setEntry k v).keys = g.keys ++ [k] := by
  simp [setEntry, h, keys]

theorem hasKey_iff_mem_keys [DecidableEq K] (g : Group K V) (k : K) :
    g.hasKey k = true ↔ k ∈ g.keys := by
  simp only [hasKey, List.any_eq_true, decide_eq_true_eq, keys, List.mem_map]

theorem keysNodup_setEntry [DecidableEq K] (g : Group K V) (k : K) (v : V)
    (h : g.keysNodup) : (g.setEntry k v).keysNodup := by
  unfold keysNodup at *
  rcases hk : g.hasKey k with _ | _
  · rw [keys_setEntry_of_not_hasKey g k v hk]
    have : k ∉ g.keys := by
      intro hmem
      rw [← hasKey_iff_mem_keys] at hmem
      rw [hk] at hmem
      exact Bool.false_ne_true hmem
    simp [List.nodup_append, h, this]
  · rw [keys_setEntry_of_hasKey g k v hk]
    exact h

theorem keysNodup_deleteEntry [DecidableEq K] (g : Group K V) (k : K)
    (h : g.keysNodup) : (g.deleteEntry k).keysNodup := by
  unfold keysNodup keys at *
  exact h.sublist ((List.filter_sublist _).map _)

theorem keysNodup_applyOps [DecidableEq K] (ops : List (GOp K V)) :
    (applyOps ops).keysNodup := by
  suffices h : ∀ (g : Group K V), g.keysNodup → (ops.foldl applyOp g).keysNodup by
    exact h ⟨[]⟩ (by simp [keysNodup, keys])
  induction ops with
  | nil => intro g hg; exact hg
  | cons op rest ih =>
      intro g hg
      rcases op with ⟨k, v⟩ | ⟨k⟩
      · exact ih _ (keysNodup_setEntry g k v hg)
      · exact ih _ (keysNodup_deleteEntry g k hg)

theorem size_eq_distinctKeyCount_of_nodup [DecidableEq K] (g : Group K V)
    (h : g.keysNodup) : g.size = g.distinctKeyCount := by
  unfold size distinctKeyCount
  rw [List.Nodup.dedup h]
  simp [keys]

theorem size_setEntry_of_hasKey [DecidableEq K] (g : Group K V) (k : K) (v : V)
    (h : g.hasKey k = true) : (g.setEntry k v).size = g.size := by
  simp [setEntry, h, size]

/-- C1: after any sequence of `set`/`delete` calls on an initially empty
`Group`, `size` equals the number of distinct keys present; `set` with an
already-present key does not change (hence never increases) `size`; and
`empty` holds iff `size = 0`. -/
theorem group_size_invariant {K : Type u} {V : Type v} [DecidableEq K]
    (ops : List (GOp K V)) :
    (Group.applyOps ops).size = (Group.applyOps ops).distinctKeyCount ∧
    (∀ (k : K) (v : V), (Group.applyOps ops).hasKey k = true →
      ((Group.applyOps ops).setEntry k v).size = (Group.applyOps ops).size) ∧
    ((Group.applyOps ops).empty = true ↔ (Group.applyOps ops).size = 0) := by
  refine ⟨size_eq_distinctKeyCount_of_nodup _ (keysNodup_applyOps ops), ?_, ?_⟩
  · intro k v h
    exact size_setEntry_of_hasKey _ k v h
  · simp [empty, EMPTY_GROUP_VALUE]

/-- A concrete operation sequence: set 1↦10, overwrite 1↦20, set 2↦5,
delete 2, set 3↦7. -/
def sampleOps : List (GOp Nat Nat) :=
  [.set 1 10, .set 1 20, .set 2 5, .del 2, .set 3 7]

/-- Witness for C1 at a concrete operation sequence and key. -/
theorem group_size_invariant_witness :
    ((Group.applyOps sampleOps).setEntry 1 99).size = (Group.applyOps sampleOps).size :=
  (group_size_invariant sampleOps).2.1 1 99 (by decide)

instance [DecidableEq K] (g : Group K V) : Decidable g.keysNodup := by
  unfold keysNodup
  infer_instance

/-- `sweep(predicate)` — take the entry snapshot `[...this.entries()]`,
filter it by the predicate, then delete each matching key; the mutated
group (`this`) is the return value. The source predicate also receives the
index and the snapshot array; the claims quantify over predicates on the
`(key, value)` pair, which ignore those extra arguments. -/
def sweep [DecidableEq K] (g : Group K V) (p : K × V → Bool) : Group K V :=
  let filtered := g.entries.filter p
  filtered.foldl (fun acc q => acc.deleteEntry q.1) g

theorem entries_foldl_deleteEntry [DecidableEq K] (l : List (K × V)) (g : Group K V) :
    (l.foldl (fun acc q => acc.deleteEntry q.1) g).entries
      = g.entries.filter fun q => decide (q.1 ∉ l.map Prod.fst) := by
  induction l generalizing g with
  | nil => simp
  | cons x xs ih =>
      rw [List.foldl_cons, ih, deleteEntry, List.filter_filter]
      apply List.filter_congr
      intro q _
      by_cases h1 : q.1 = x.1 <;> by_cases h2 : q.1 ∈ xs.map Prod.fst <;>
        simp [h1, h2]

theorem mem_filter_keys_iff [DecidableEq K] (g : Group K V) (p : K × V → Bool)
    (h : g.keysNodup) (q : K × V) (hq : q ∈ g.entries) :
    q.1 ∈ (g.entries.filter p).map Prod.fst ↔ p q = true := by
  constructor
  · intro hmem
    rcases List.mem_map.mp hmem with ⟨q', hq', hkey⟩
    rcases List.mem_filter.mp hq' with ⟨hq'mem, hq'p⟩
    have : q' = q := List.inj_on_of_nodup_map h hq'mem hq hkey
    rw [← this]
    exact hq'p
  · intro hp
    exact List.mem_map.mpr ⟨q, List.mem_filter.mpr ⟨hq, hp⟩, rfl⟩

/-- C2: on a `Group` satisfying the `Map` key-uniqueness invariant,
`sweep(P)`'s resulting state is exactly the original entry sequence with
the entries satisfying `P` removed: each satisfying entry is deleted, every
other entry survives, and the survivors keep their relative order; the
mutated group itself is returned. -/
theorem sweep_removes_exactly {K : Type u} {V : Type v} [DecidableEq K]
    (g : Group K V) (p : K × V → Bool) (h : g.keysNodup) :
    (g.sweep p).entries = g.entries.filter fun q => !p q := by
  unfold sweep
  rw [entries_foldl_deleteEntry]
  apply List.filter_congr
  intro q hq
  rcases hp : p q with _ | _ <;>
    simp [mem_filter_keys_iff g p h q hq, hp]

/-- A concrete group for witnesses: 1↦10, 2↦20, 3↦30. -/
def sampleGroup : Group Nat Nat :=
  ⟨[(1, 10), (2, 20), (3, 30)]⟩

/-- Witness for C2: sweeping the entries whose value is at least 20 from
the sample group leaves exactly the first entry. -/
theorem sweep_removes_exactly_witness :
    (sampleGroup.sweep fun q => decide (20 ≤ q.2)).entries
      = sampleGroup.entries.filter fun q => !decide (20 ≤ q.2) :=
  sweep_removes_exactly sampleGroup (fun q => decide (20 ≤ q.2)) (by decide)

/-- `first()` with the amount omitted — the source returns `entries.at(0)`:
the first *entry pair*, not the first value. -/
def firstDefault (g : Group K V) : Option (K × V) :=
  g.entries.head?

/-- `first(amount)` — `Object.fromEntries(entries.slice(0, amount))`,
modelled as the ordered entry list it is built from (keys are distinct in a
`Map`, so `Object.fromEntries` keeps exactly these entries in order). -/
def firstN (g : Group K V) (n : Nat) : List (K × V) :=
  g.entries.take n

/-- `last()` with the amount omitted — the source returns `entries.at(0)`
(the FIRST entry), not the last one. -/
def lastDefault (g : Group K V) : Option (K × V) :=
  g.entries.head?

/-- `last(amount)` — `Object.fromEntries(entries.slice(-amount))`; in
JavaScript `slice(-0)` is `slice(0)`, the whole array. -/
def lastN (g : Group K V) (n : Nat) : List (K × V) :=
  if n = 0 then g.entries else g.entries.drop (g.entries.length - n)

/-- C3 evaluated at the failing input: on the two-entry group 1↦10, 2↦20,
`last()` (amount omitted) returns the first entry pair `(1, 10)` — the
real last entry is `(2, 20)` and the claim expects the last value `20` —
and `first()` likewise returns the entry pair `(1, 10)` rather than the
bare value `10`. -/
theorem last_default_returns_first_entry :
    (⟨[(1, 10), (2, 20)]⟩ : Group Nat Nat).lastDefault = some (1, 10) ∧
    (⟨[(1, 10), (2, 20)]⟩ : Group Nat Nat).entries.getLast? = some (2, 20) ∧
    (⟨[(1, 10), (2, 20)]⟩ : Group Nat Nat).firstDefault = some (1, 10) := by
  refine ⟨rfl, rfl, rfl⟩

/-- `merge(group)` — `group.forEach((value, key) => this.set(key, value))`,
returning the mutated `this`. -/
def merge [DecidableEq K] (a b : Group K V) : Group K V :=
  b.entries.foldl (fun acc q => acc.setEntry q.1 q.2) a

theorem find?_mapSet [DecidableEq K] (l : List (K × V)) (k k' : K) (v : V) :
    ((l.map fun p => if p.1 = k then (k, v) else p).find? fun p => decide (p.1 = k'))
      = if k' = k then (l.find? fun p => decide (p.1 = k)).map fun _ => (k, v)
        else l.find? fun p => decide (p.1 = k') := by
  induction l with
  | nil => by_cases hkk : k' = k <;> simp [hkk]
  | cons p l ih =>
      by_cases hp : p.1 = k <;> by_cases hkk : k' = k
      · subst hkk
        simp [List.find?_cons, hp]
      · have h1 : ¬(k = k') := fun hc => hkk hc.symm
        have h2 : ¬(p.1 = k') := fun hc => h1 (hp.symm.trans hc)
        simp [List.find?_cons, hp, hkk, h1, h2, ih]
      · subst hkk
        simp [List.find?_cons, hp, ih]
      · by_cases hpk' : p.1 = k' <;> simp [List.find?_cons, hp, hkk, hpk', ih]

theorem find?_append_single [DecidableEq K] (l : List (K × V)) (k k' : K) (v : V)
    (h : (l.any fun p => decide (p.1 = k)) = false) :
    ((l ++ [(k, v)]).find? fun p => decide (p.1 = k'))
      = if k' = k then some (k, v) else l.find? fun p => decide (p.1 = k') := by
  induction l with
  | nil =>
      by_cases hkk : k' = k
      · subst hkk
        simp [List.find?_cons]
      · have h1 : ¬(k = k') := fun hc => hkk hc.symm
        simp [List.find?_cons, h1, hkk]
  | cons p l ih =>
      simp only [List.any_cons, Bool.or_eq_false_iff, decide_eq_false_iff_not] at h
      by_cases hpk' : p.1 = k'
      · have hne : ¬(k' = k) := fun hc => h.1 (hpk'.trans hc)
        simp [List.find?_cons, hpk', hne]
      · simp [List.find?_cons, hpk', ih h.2]

theorem get_setEntry [DecidableEq K] (g : Group K V) (k k' : K) (v : V) :
    (g.setEntry k v).get k' = if k' = k then some v else g.get k' := by
  unfold setEntry get
  rcases hk : g.hasKey k with _ | _
  · simp only [Bool.false_eq_true, if_false]
    rw [find?_append_single g.entries k k' v hk]
    by_cases hkk : k' = k <;> simp [hkk]
  · simp only [if_true]
    rw [find?_mapSet g.entries k k' v]
    by_cases hkk : k' = k
    · subst hkk
      simp only [if_pos rfl]
      have hsome : (g.entries.find? fun p => decide (p.1 = k')).isSome := by
        rw [List.find?_isSome]
        simpa [hasKey, List.any_eq_true] using hk
      rcases hfind : g.entries.find? fun p => decide (p.1 = k') with _ | q
      · rw [hfind] at hsome
        simp at hsome
      · rw [hfind]
        simp
    · simp [hkk]

theorem foldl_setEntry_get [DecidableEq K] (l : List (K × V)) (a : Group K V) (k : K)
    (h : (l.map Prod.fst).Nodup) :
    (l.foldl (fun acc q => acc.setEntry q.1 q.2) a).get k
      = match l.find? fun p => decide (p.1 = k) with
        | some q => some q.2
        | none => a.get k := by
  induction l generalizing a with
  | nil => simp
  | cons q l ih =>
      simp only [List.map_cons, List.nodup_cons] at h
      rw [List.foldl_cons, ih _ h.2]
      by_cases hk : q.1 = k
      · subst hk
        have hnone : (l.find? fun p => decide (p.1 = q.1)) = none := by
          rw [List.find?_eq_none]
          intro x hx
          simp only [decide_eq_true_eq]
          intro hc
          exact h.1 (hc ▸ List.mem_map_of_mem Prod.fst hx)
        rw [hnone, List.find?_cons_of_pos _ (by simp)]
        simp [get_setEntry]
      · rw [List.find?_cons_of_neg _ (by simpa using hk)]
        rcases hfind : l.find? fun p => decide (p.1 = k) with _ | q'
        · rw [hfind]
          have hne : ¬(k = q.1) := fun hc => hk hc.symm
          simp [get_setEntry, hne]
        · rw [hfind]

theorem hasKey_eq_false_find? [DecidableEq K] (g : Group K V) (k : K)
    (h : g.hasKey k = false) : (g.entries.find? fun p => decide (p.1 = k)) = none := by
  rw [List.find?_eq_none]
  intro x hx
  simp only [hasKey, List.any_eq_false, decide_eq_true_eq] at h
  simpa using h x hx

/-- C4: on a merge source `B` satisfying the `Map` key-uniqueness
invariant, after `A.merge(B)` (which mutates and returns `A`) every key of
`B` maps to `B`'s value for it, and every other key keeps `A`'s previous
value. -/
theorem merge_spec {K : Type u} {V : Type v} [DecidableEq K]
    (a b : Group K V) (h : b.keysNodup) :
    (∀ k : K, b.hasKey k = true → (a.merge b).get k = b.get k) ∧
    (∀ k : K, b.hasKey k = false → (a.merge b).get k = a.get k) := by
  constructor
  · intro k hk
    rw [merge, foldl_setEntry_get b.entries a k h]
    have hsome : (b.entries.find? fun p => decide (p.1 = k)).isSome := by
      rw [List.find?_isSome]
      simpa [hasKey, List.any_eq_true] using hk
    rcases hfind : b.entries.find? fun p => decide (p.1 = k) with _ | q
    · rw [hfind] at hsome
      simp at hsome
    · simp [get, hfind]
  · intro k hk
    rw [merge, foldl_setEntry_get b.entries a k h, hasKey_eq_false_find? b k hk]

/-- Witness for C4 on concrete groups: A = {1↦10, 2↦20}, B = {2↦99, 3↦30}. -/
theorem merge_spec_witness :
    ((⟨[(1, 10), (2, 20)]⟩ : Group Nat Nat).merge ⟨[(2, 99), (3, 30)]⟩).get 2 =
      (⟨[(2, 99), (3, 30)]⟩ : Group Nat Nat).get 2 :=
  (merge_spec ⟨[(1, 10), (2, 20)]⟩ ⟨[(2, 99), (3, 30)]⟩ (by decide)).1 2 (by decide)

/-- The error raised by `reduce`/`reduceRight` on an empty container:
JavaScript's `Array.prototype.reduce` with no initial value throws on an
empty array. -/
inductive GroupError where
  | emptyReduce
  deriving DecidableEq, Repr

/-- `reduce(callbackfn)` — `this.toArray().reduce(callbackfn)` with no
initial value: the first value seeds the accumulator, combining leftwards;
on an empty container the call fails. -/
def reduce (g : Group K V) (f : V → V → V) : Except GroupError V :=
  match g.toArray with
  | [] => .error .emptyReduce
  | x :: xs => .ok (xs.foldl f x)

/-- `reduceRight(callbackfn)` — `this.toArray().reduceRight(callbackfn)`:
the last value seeds the accumulator, combining right-to-left as
`f accumulated current`; fails on an empty container. -/
def reduceRight (g : Group K V) (f : V → V → V) : Except GroupError V :=
  match g.toArray.reverse with
  | [] => .error .emptyReduce
  | x :: xs => .ok (xs.foldl f x)

/-- C5: `reduce` and `reduceRight` fail with the empty-reduce error on any
group of size 0; on values `[1,2,3]` `reduce` with addition yields `6`; on
values `["a","b","c"]` `reduceRight` with concatenation yields `"cba"`. -/
theorem reduce_empty_and_examples :
    (∀ (K : Type u) (V : Type v) (g : Group K V) (f : V → V → V),
      g.size = 0 → g.reduce f = .error .emptyReduce) ∧
    (∀ (K : Type u) (V : Type v) (g : Group K V) (f : V → V → V),
      g.size = 0 → g.reduceRight f = .error .emptyReduce) ∧
    (⟨[(1, 1), (2, 2), (3, 3)]⟩ : Group Nat Nat).reduce (fun a b => a + b) = .ok 6 ∧
    (⟨[(1, "a"), (2, "b"), (3, "c")]⟩ : Group Nat String).reduceRight
      (fun a b => a ++ b) = .ok "cba" := by
  have hempty : ∀ (K : Type u) (V : Type v) (g : Group K V),
      g.size = 0 → g.toArray = [] := by
    intro K V g hg
    unfold size at hg
    unfold toArray
    rw [List.length_eq_zero.mp hg]
    rfl
  refine ⟨?_, ?_, rfl, rfl⟩
  · intro K V g f hg
    rw [reduce, hempty K V g hg]
  · intro K V g f hg
    rw [reduceRight, hempty K V g hg]
    rfl

/-- Witness for C5 at a concrete empty group. -/
theorem reduce_empty_and_examples_witness :
    (⟨[]⟩ : Group Nat Nat).reduce (fun a b => a + b) = .error .emptyReduce :=
  reduce_empty_and_examples.1 Nat Nat ⟨[]⟩ (fun a b => a + b) rfl

end Group

/-! ## RoleManager (role-manager source file) -/

/-- Options accepted by `edit` (`EditRoleOptions`); the declaration-only
shape is out of the claims' scope beyond carrying the edited fields. -/
structure EditRoleOptions where
  name : Option String := none
  position : Option Int := none
  deriving DecidableEq, Repr

/-- A cached role: the fields the manager reads — the `id` key and the
`position` used by `comparePosition`. A `RoleResolvable` exposes the same
fields. -/
structure Role where
  id : String
  position : Int
  name : String := ""
  deriving DecidableEq, Repr

/-- Modelled from the spec: the `Role` entity class is not under src/;
per the spec, `edit` "delegates to the cached instance's own edit
capability (which performs the remote patch and returns a fresh
instance)". The remote call is out of scope and assumed to succeed, so the
fresh instance carries the edited fields over the old ones. -/
def Role.edit (r : Role) (options : EditRoleOptions) : Role :=
  { id := r.id
    position := options.position.getD r.position
    name := options.name.getD r.name }

/-- The state of a `RoleManager`: its cache, a `Group` keyed by the role
identifier (`Snowflake`, an opaque numeric string). -/
structure RoleManager where
  cache : Group String Role
  deriving DecidableEq, Repr

/-- Failure kinds of manager operations. `NotFound` models the runtime
failure of `this.cache.get(role.id)!.edit(options)` when the identifier is
not cached: the non-null assertion dereferences `undefined` and the call
fails — no blank entity is constructed. -/
inductive ManagerError where
  | NotFound
  deriving DecidableEq, Repr

namespace RoleManager

/-- `comparePosition(role1, role2)` —
`role1.position > role2.position ? role1.position - role2.position
: role2.position - role1.position`. -/
def comparePosition (role1 role2 : Role) : Int :=
  if role1.position > role2.position then role1.position - role2.position
  else role2.position - role1.position

/-- `delete(role, reason?)` — issues the remote deletion (out of scope,
assumed successful; `reason` is transport metadata only) and then removes
the identifier from the cache. -/
def delete (m : RoleManager) (role : Role) : RoleManager :=
  ⟨m.cache.deleteEntry role.id⟩

/-- `edit(role, options)` — `this.cache.get(role.id)!.edit(options)`:
resolve the live cached entry and delegate to its `edit`; when the
identifier is not cached the dereference fails (modelled as `NotFound`). -/
def edit (m : RoleManager) (role : Role) (options : EditRoleOptions) :
    Except ManagerError Role :=
  match m.cache.get role.id with
  | some r => .ok (r.edit options)
  | none => .error .NotFound

/-- `resolveId(role)` — the identity projection onto the identifier. -/
def resolveId (role : Role) : String :=
  role.id

/-- C8: `comparePosition(a, b)` equals the absolute value of the position
difference, and is therefore never negative. -/
theorem comparePosition_abs (role1 role2 : Role) :
    comparePosition role1 role2 = |role1.position - role2.position| ∧
    0 ≤ comparePosition role1 role2 := by
  constructor
  · unfold comparePosition
    rcases lt_trichotomy role1.position role2.position with h | h | h
    · rw [if_neg (by omega), abs_sub_comm, abs_of_pos (by omega)]
    · rw [if_neg (by omega), h]
      simp
    · rw [if_pos (by omega), abs_of_pos (by omega)]
  · unfold comparePosition
    split <;> omega

/-- C9: when the identifier of the given role is not in the cache, `edit`
fails with `NotFound` (no blank entity is constructed); in particular,
right after `delete` has removed a role's key, `edit` on that same
identifier fails with `NotFound`. -/
theorem edit_not_cached_fails (m : RoleManager) (role : Role)
    (options : EditRoleOptions) :
    (m.cache.get role.id = none → m.edit role options = .error .NotFound) ∧
    (m.delete role).edit role options = .error .NotFound := by
  constructor
  · intro h
    rw [edit, h]
  · rw [edit, delete]
    have h : (m.cache.deleteEntry role.id).get role.id = none := by
      rw [Group.get]
      have hfind : ((m.cache.deleteEntry role.id).entries.find?
          fun p => decide (p.1 = role.id)) = none := by
        rw [List.find?_eq_none]
        intro p hp
        rcases List.mem_filter.mp hp with ⟨_, hdec⟩
        simpa using hdec
      rw [hfind]
      rfl
    rw [show (⟨m.cache.deleteEntry role.id⟩ : RoleManager).cache
        = m.cache.deleteEntry role.id from rfl, h]

/-- A concrete manager caching one role with identifier "42". -/
def sampleManager : RoleManager :=
  ⟨⟨[("42", { id := "42", position := 3 })]⟩⟩

/-- Witness for C9: editing the uncached identifier "7" fails, and editing
"42" right after deleting it fails. -/
theorem edit_not_cached_fails_witness :
    sampleManager.edit { id := "7", position := 0 } {} = .error .NotFound ∧
    (sampleManager.delete { id := "42", position := 3 }).edit
      { id := "42", position := 3 } {} = .error .NotFound :=
  ⟨(edit_not_cached_fails sampleManager { id := "7", position := 0 } {}).1 rfl,
    (edit_not_cached_fails sampleManager { id := "42", position := 3 } {}).2⟩

end RoleManager

/-! ## BasicInteraction (interaction-classification source file) -/

/-- Modelled from the spec: the `InteractionTypes` enum file is not under
src/; the spec lists the primary type tags Ping, ApplicationCommand,
MessageComponent, ApplicationCommandAutocomplete, ModalSubmit. -/
inductive InteractionTypes where
  | Ping
  | ApplicationCommand
  | MessageComponent
  | ApplicationCommandAutocomplete
  | ModalSubmit
  deriving DecidableEq, Repr

/-- Modelled from the spec: the `ComponentTypes` enum file is not under
src/; the variants are the component kinds named by the predicate methods. -/
inductive ComponentTypes where
  | ActionRow
  | Button
  | StringSelectMenu
  | TextInput
  | UserSelectMenu
  | RoleSelectMenu
  | MentionableSelectMenu
  | ChannelSelectMenu
  deriving DecidableEq, Repr

/-- Modelled from the spec: the `ContextMenuTypes` enum file is not under
src/; the tertiary tag distinguishes user (2) and message (3) context
menus, compared against the wire-level `data.type` number. -/
def ContextMenuTypes.User : Nat := 2

/-- Modelled from the spec: the message context-menu tag. -/
def ContextMenuTypes.Message : Nat := 3

/-- The nested `data` payload of an interaction (`IInteractionData`): the
fields the classifier reads. `type` is the wire-level numeric tag. -/
structure IInteractionData where
  type : Option Nat := none
  component_type : Option ComponentTypes := none
  target_id : Option String := none
  deriving DecidableEq, Repr

/-- A raw guild sub-payload: the classifier only reads its identifier. -/
structure RawGuildData where
  id : Option String := none
  deriving DecidableEq, Repr

/-- A raw member sub-payload (opaque to the classifier). -/
structure RawMemberData where
  nick : Option String := none
  deriving DecidableEq, Repr

/-- A raw user sub-payload (opaque to the classifier). -/
structure RawUserData where
  id : String := ""
  deriving DecidableEq, Repr

/-- A raw message sub-payload (opaque to the classifier). -/
structure RawMessageData where
  id : String := ""
  deriving DecidableEq, Repr

/-- `new Guild(data.guild, client)` — the guild wrapper built
unconditionally, keyed by a possibly absent identifier. -/
structure Guild where
  raw : Option RawGuildData
  deriving DecidableEq, Repr

/-- The wrapper's identifier: absent when the raw guild data (or its id)
is absent. -/
def Guild.id (g : Guild) : Option String :=
  g.raw.bind fun r => r.id

/-- `new GuildMember(data.member, client, guild.id)`. -/
structure GuildMember where
  raw : RawMemberData
  guildId : Option String
  deriving DecidableEq, Repr

/-- `new User(data.user, client)`. -/
structure User where
  raw : RawUserData
  deriving DecidableEq, Repr

/-- `new Message(data.message, client)`. -/
structure Message where
  raw : RawMessageData
  deriving DecidableEq, Repr

/-- The value a constructed sub-entity field can end up holding: absent
(`undefined`), the raw sub-payload (after `Object.assign` splats it over
the field), or the constructed typed entity. -/
inductive SubField (Raw : Type) (Built : Type) where
  | absent
  | raw (r : Raw)
  | built (b : Built)
  deriving DecidableEq, Repr

/-- The raw interaction payload (`RawInteractionData`). The TypeScript
interface marks `id`, `type`, `token` and `version` required, but nothing
validates the wire payload, so every field is modelled as possibly absent. -/
structure RawInteractionData where
  id : Option String := none
  application_id : Option String := none
  type : Option InteractionTypes := none
  data : Option IInteractionData := none
  guild : Option RawGuildData := none
  channel_id : Option String := none
  member : Option RawMemberData := none
  user : Option RawUserData := none
  token : Option String := none
  version : Option Nat := none
  message : Option RawMessageData := none
  app_permissions : Option String := none
  locale : Option String := none
  guild_locale : Option String := none
  deriving DecidableEq, Repr

/-- The constructed `BasicInteraction` object. -/
structure BasicInteraction where
  id : Option String
  application_id : Option String
  type : Option InteractionTypes
  data : Option IInteractionData
  guild : SubField RawGuildData Guild
  channel_id : Option String
  member : SubField RawMemberData GuildMember
  user : SubField RawUserData User
  token : Option String
  version : Option Nat
  message : SubField RawMessageData Message
  app_permissions : Option String
  locale : Option String
  guild_locale : Option String
  component_type : Option ComponentTypes
  creation_timestamp : Option ℚ
  deriving DecidableEq

/-- `(+this.id / 4194304) + 1420070400000` — the Snowflake epoch formula;
`none` models the `NaN` produced when the identifier is absent or not
numeric. -/
def creationTimestampOf (id : Option String) : Option ℚ :=
  id.bind fun s => s.toNat?.map fun n => (n : ℚ) / 4194304 + 1420070400000

/-- One field's share of the final `Object.assign(this, data)`: a property
present on the raw payload overwrites the field just constructed with the
raw value; an absent property leaves the field as constructed. -/
def assignOver {Raw Built : Type} (prop : Option Raw)
    (constructed : SubField Raw Built) : SubField Raw Built :=
  match prop with
  | some r => .raw r
  | none => constructed

/-- The `BasicInteraction` constructor: the explicit field assignments
(guild built unconditionally; member/user/message built only when the raw
counterpart is present) followed by `Object.assign(this, data)`, which
overwrites every field whose property is present on the raw payload with
that raw value. The constructor performs no validation and cannot fail. -/
def buildInteraction (data : RawInteractionData) : BasicInteraction :=
  let guild0 : Guild := ⟨data.guild⟩
  let member0 : SubField RawMemberData GuildMember :=
    match data.member with
    | some m => .built ⟨m, guild0.id⟩
    | none => .absent
  let user0 : SubField RawUserData User :=
    match data.user with
    | some u => .built ⟨u⟩
    | none => .absent
  let message0 : SubField RawMessageData Message :=
    match data.message with
    | some m => .built ⟨m⟩
    | none => .absent
  { id := data.id
    application_id := data.application_id
    type := data.type
    data := data.data
    guild := assignOver data.guild (.built guild0)
    channel_id := data.channel_id
    member := assignOver data.member member0
    user := assignOver data.user user0
    token := data.token
    version := data.version
    message := assignOver data.message message0
    app_permissions := data.app_permissions
    locale := data.locale
    guild_locale := data.guild_locale
    component_type := data.data.bind fun d => d.component_type
    creation_timestamp := creationTimestampOf data.id }

namespace BasicInteraction

/-- JavaScript truthiness of an optional string: present and non-empty. -/
def truthyStr : Option String → Bool
  | some s => decide (s ≠ "")
  | none => false

/-- `isApplicationCommand()` — primary-type equality. -/
def isApplicationCommand (i : BasicInteraction) : Bool :=
  decide (i.type = some InteractionTypes.ApplicationCommand)

/-- `isButton()`. -/
def isButton (i : BasicInteraction) : Bool :=
  decide (i.component_type = some ComponentTypes.Button)

/-- `isChannelSelectMenu()`. -/
def isChannelSelectMenu (i : BasicInteraction) : Bool :=
  decide (i.component_type = some ComponentTypes.ChannelSelectMenu)

/-- `isStringSelectMenu()`. -/
def isStringSelectMenu (i : BasicInteraction) : Bool :=
  decide (i.component_type = some ComponentTypes.StringSelectMenu)

/-- `isUserSelectMenu()`. -/
def isUserSelectMenu (i : BasicInteraction) : Bool :=
  decide (i.component_type = some ComponentTypes.UserSelectMenu)

/-- `isRoleSelectMenu()`. -/
def isRoleSelectMenu (i : BasicInteraction) : Bool :=
  decide (i.component_type = some ComponentTypes.RoleSelectMenu)

/-- `isMentionableSelectMenu()`. -/
def isMentionableSelectMenu (i : BasicInteraction) : Bool :=
  decide (i.component_type = some ComponentTypes.MentionableSelectMenu)

/-- `isAnySelectMenu()` — membership of `component_type` in the five
select-menu kinds (`includes` on `undefined` is `false`). -/
def isAnySelectMenu (i : BasicInteraction) : Bool :=
  match i.component_type with
  | some ct =>
      [ComponentTypes.StringSelectMenu, ComponentTypes.ChannelSelectMenu,
        ComponentTypes.MentionableSelectMenu, ComponentTypes.RoleSelectMenu,
        ComponentTypes.UserSelectMenu].contains ct
  | none => false

/-- `isTextInput()`. -/
def isTextInput (i : BasicInteraction) : Bool :=
  decide (i.component_type = some ComponentTypes.TextInput)

/-- `isMessageContextMenu()` —
`this.data?.target_id && this.data.type === ContextMenuTypes.Message`. -/
def isMessageContextMenu (i : BasicInteraction) : Bool :=
  match i.data with
  | some d => truthyStr d.target_id && decide (d.type = some ContextMenuTypes.Message)
  | none => false

/-- `isUserContextMenu()` —
`this.data?.target_id && this.data.type === ContextMenuTypes.User`. -/
def isUserContextMenu (i : BasicInteraction) : Bool :=
  match i.data with
  | some d => truthyStr d.target_id && decide (d.type = some ContextMenuTypes.User)
  | none => false

/-- `isAnyContextMenu()` — `this.data?.target_id ? true : false`. -/
def isAnyContextMenu (i : BasicInteraction) : Bool :=
  match i.data with
  | some d => truthyStr d.target_id
  | none => false

end BasicInteraction

/-- A raw payload carrying a member sub-payload (and a user one), used to
exhibit the `Object.assign` overwrite. -/
def memberPayload : RawInteractionData :=
  { id := some "175928847299117063"
    type := some InteractionTypes.ApplicationCommand
    guild := some { id := some "g1" }
    member := some { nick := some "nick" }
    user := some { id := "u1" }
    token := some "tok" }

/-- C6 evaluated at the failing input: on a payload whose raw `member`,
`user` and `guild` are present, the final `Object.assign(this, data)`
leaves those fields holding the raw sub-payloads — not the constructed
typed entities the claim requires — while a payload without `member`
does leave the field absent. -/
theorem constructor_fields_raw_after_assign :
    (buildInteraction memberPayload).member = .raw { nick := some "nick" } ∧
    (buildInteraction memberPayload).user = .raw { id := "u1" } ∧
    (buildInteraction memberPayload).guild = .raw { id := some "g1" } ∧
    (buildInteraction { }).member = .absent :=
  ⟨rfl, rfl, rfl, rfl⟩

/-- A payload lacking both the identifier and the primary type. -/
def malformedPayload : RawInteractionData :=
  { token := some "tok", version := some 1 }

/-- C7 counterexample: the constructor performs no validation — on a
payload lacking both the primary type and the identifier it still produces
a classified object (scalar fields copied best-effort, the missing ones
absent), rather than failing with a `MalformedPayload` error. -/
theorem no_malformed_payload_failure :
    (buildInteraction malformedPayload).id = none ∧
    (buildInteraction malformedPayload).type = none ∧
    (buildInteraction malformedPayload).token = some "tok" ∧
    (buildInteraction malformedPayload).creation_timestamp = none :=
  ⟨rfl, rfl, rfl, rfl⟩

/-- C7 amended: classification never fails — for every raw payload the
constructor yields an object whose `id` and `type` are copied verbatim
from the payload (absent stays absent), with no error path. -/
theorem constructor_total_copies_discriminants (data : RawInteractionData) :
    (buildInteraction data).id = data.id ∧
    (buildInteraction data).type = data.type ∧
    (buildInteraction data).token = data.token :=
  ⟨rfl, rfl, rfl⟩

/-- C10: on every constructed interaction, `isAnySelectMenu` holds iff one
of the five specific select-menu predicates holds; and whenever
`isUserContextMenu` or `isMessageContextMenu` holds, `isAnyContextMenu`
holds too. -/
theorem predicate_consistency (data : RawInteractionData) :
    ((buildInteraction data).isAnySelectMenu = true ↔
      ((buildInteraction data).isStringSelectMenu = true ∨
        (buildInteraction data).isChannelSelectMenu = true ∨
        (buildInteraction data).isMentionableSelectMenu = true ∨
        (buildInteraction data).isRoleSelectMenu = true ∨
        (buildInteraction data).isUserSelectMenu = true)) ∧
    ((buildInteraction data).isUserContextMenu = true ∨
        (buildInteraction data).isMessageContextMenu = true →
      (buildInteraction data).isAnyContextMenu = true) := by
  constructor
  · rcases hct : (buildInteraction data).component_type with _ | ct
    · simp [BasicInteraction.isAnySelectMenu, BasicInteraction.isStringSelectMenu,
        BasicInteraction.isChannelSelectMenu, BasicInteraction.isMentionableSelectMenu,
        BasicInteraction.isRoleSelectMenu, BasicInteraction.isUserSelectMenu, hct]
    · cases ct <;>
        simp [BasicInteraction.isAnySelectMenu, BasicInteraction.isStringSelectMenu,
          BasicInteraction.isChannelSelectMenu, BasicInteraction.isMentionableSelectMenu,
          BasicInteraction.isRoleSelectMenu, BasicInteraction.isUserSelectMenu, hct,
          List.contains_cons, List.contains_nil]
  · intro h
    rcases hd : (buildInteraction data).data with _ | d
    · rcases h with h | h <;>
        simp [BasicInteraction.isUserContextMenu, BasicInteraction.isMessageContextMenu,
          hd] at h
    · rcases h with h | h <;>
      · simp only [BasicInteraction.isUserContextMenu,
          BasicInteraction.isMessageContextMenu, hd, Bool.and_eq_true] at h
        simp [BasicInteraction.isAnyContextMenu, hd, h.1]

/-- A context-menu payload: an application command whose data carries a
target identifier and the user context-menu tag. -/
def contextMenuPayload : RawInteractionData :=
  { id := some "175928847299117063"
    type := some InteractionTypes.ApplicationCommand
    data := some { type := some ContextMenuTypes.User, target_id := some "99" } }

/-- Witness for C10: on the concrete context-menu payload,
`isUserContextMenu` holds, hence `isAnyContextMenu` holds. -/
theorem predicate_consistency_witness :
    (buildInteraction contextMenuPayload).isAnyContextMenu = true :=
  (predicate_consistency contextMenuPayload).2 (Or.inl (by decide))

end TypeCord
